import Mathlib

/-!
Shallow embedding of the bank-mail backend (in-memory storage, analytics
aggregations and the response cache) together with proofs about the
behaviour its specification describes.

Conventions of the embedding:
* Python `dict`s are association lists kept in insertion order.
* `datetime.now()` is an explicit `now` parameter; timestamps are clock
  ticks measured in hours, so `created_at.date()` is `created_at / 24`
  (ISO date strings compare lexicographically exactly as those day
  numbers compare numerically).
* Python floats are modelled as exact rationals.
* Python `sorted` is specified as a stable sort, and a stable sort's
  output is uniquely determined by the order of the input, so
  `List.insertionSort` (which Mathlib proves stable) is an exact model
  of its input/output behaviour.
-/

namespace BankMail

/-- Python `d.get(k)` / `k in d` lookup on a dict modelled as an
association list in insertion order. -/
def dictGet {K V : Type} [DecidableEq K] (d : List (K × V)) (k : K) : Option V :=
  (d.find? (fun kv => decide (kv.1 = k))).map (fun kv => kv.2)

/-- Python `d[k] = v`: replaces the value of an existing key in place,
otherwise appends the new binding at the end (dicts preserve insertion
order). -/
def dictSet {K V : Type} [DecidableEq K] (k : K) (v : V) : List (K × V) → List (K × V)
  | [] => [(k, v)]
  | kv :: rest => if kv.1 = k then (k, v) :: rest else kv :: dictSet k v rest

/-- Python `del d[k]`. -/
def dictDelete {K V : Type} [DecidableEq K] (k : K) : List (K × V) → List (K × V)
  | [] => []
  | kv :: rest => if kv.1 = k then rest else kv :: dictDelete k rest

/-- Python `d.values()` in insertion order. -/
def dictValues {K V : Type} (d : List (K × V)) : List V :=
  d.map (fun kv => kv.2)

/-- Python `d.keys()` in insertion order. -/
def dictKeys {K V : Type} (d : List (K × V)) : List K :=
  d.map (fun kv => kv.1)

/-- Python `d.get(k, v0)`. -/
def dictGetD {K V : Type} [DecidableEq K] (d : List (K × V)) (k : K) (v0 : V) : V :=
  (dictGet d k).getD v0

/-- Python `s.strip()`: drop whitespace from both ends of the string. -/
def pyStrip (s : String) : String :=
  ⟨((s.data.dropWhile Char.isWhitespace).reverse.dropWhile Char.isWhitespace).reverse⟩

/-- A company context record (`storage.py`, `create_context`). -/
structure Context where
  id : Nat
  name : String
  context_text : String
  description : Option String
  created_at : Nat
  updated_at : Nat
deriving DecidableEq

/-- A thread record (`storage.py`, `create_thread`). A `none` field models
a key holding Python `None`. -/
structure Thread where
  id : Nat
  subject : String
  company_context_id : Option Nat
  extra_directives : Option (List String)
  custom_prompt : Option String
  created_at : Nat
  updated_at : Nat
deriving DecidableEq

/-- A message record (`storage.py`, `add_message`). -/
structure Message where
  id : Nat
  thread_id : Nat
  message_type : String
  subject : String
  body : String
  sender_name : Option String
  sender_position : Option String
  generation_time_seconds : Option ℚ
  created_at : Nat
deriving DecidableEq

/-- The `InMemoryStorage` state: three dicts keyed by id plus the three
id counters. -/
structure Storage where
  contexts : List (Nat × Context)
  threads : List (Nat × Thread)
  messages : List (Nat × Message)
  context_counter : Nat
  thread_counter : Nat
  message_counter : Nat
deriving DecidableEq

/-- `InMemoryStorage.__init__` before any data is inserted (the mock-data
seeding is a dev fixture, not part of the storage contract). -/
def emptyStorage : Storage := ⟨[], [], [], 1, 1, 1⟩

/-- `InMemoryStorage.get_context`. -/
def get_context (s : Storage) (context_id : Nat) : Option Context :=
  dictGet s.contexts context_id

/-- `InMemoryStorage.get_thread`. -/
def get_thread (s : Storage) (thread_id : Nat) : Option Thread :=
  dictGet s.threads thread_id

/-- `InMemoryStorage.create_thread` (storage.py 148-165). The argument
values are stored verbatim in the new record; no normalization happens
here. -/
def create_thread (s : Storage) (now : Nat) (subject : String)
    (company_context_id : Option Nat) (extra_directives : Option (List String))
    (custom_prompt : Option String) : Thread × Storage :=
  let thread : Thread :=
    ⟨s.thread_counter, subject, company_context_id, extra_directives,
      custom_prompt, now, now⟩
  (thread, { s with thread_counter := s.thread_counter + 1,
                    threads := dictSet thread.id thread s.threads })

/-- `InMemoryStorage.update_thread_directives` (storage.py 176-189).
A `none` argument models Python `None` ("leave unchanged"); for a `some`
argument the body mirrors the Python truthiness tests
`extra_directives if extra_directives else None` and
`custom_prompt.strip() if custom_prompt and custom_prompt.strip() else None`. -/
def update_thread_directives (s : Storage) (now : Nat) (thread_id : Nat)
    (extra_directives : Option (List String)) (custom_prompt : Option String) :
    Option Thread × Storage :=
  match dictGet s.threads thread_id with
  | none => (none, s)
  | some t =>
    let ed : Option (List String) :=
      match extra_directives with
      | none => t.extra_directives
      | some l => if l.isEmpty then none else some l
    let cp : Option String :=
      match custom_prompt with
      | none => t.custom_prompt
      | some p => if pyStrip p = "" then none else some (pyStrip p)
    let t2 : Thread :=
      { t with extra_directives := ed, custom_prompt := cp, updated_at := now }
    (some t2, { s with threads := dictSet thread_id t2 s.threads })

/-- `InMemoryStorage.add_message` (storage.py 192-217): stores the new
message unconditionally and, when the referenced thread exists, refreshes
that thread's `updated_at`. -/
def add_message (s : Storage) (now : Nat) (thread_id : Nat) (message_type : String)
    (subject : String) (body : String) (sender_name : Option String)
    (sender_position : Option String) (generation_time_seconds : Option ℚ) :
    Message × Storage :=
  let message : Message :=
    ⟨s.message_counter, thread_id, message_type, subject, body,
      sender_name, sender_position, generation_time_seconds, now⟩
  let threads2 : List (Nat × Thread) :=
    match dictGet s.threads thread_id with
    | some t => dictSet thread_id { t with updated_at := now } s.threads
    | none => s.threads
  (message, { s with message_counter := s.message_counter + 1,
                     messages := dictSet message.id message s.messages,
                     threads := threads2 })

/-- `InMemoryStorage.get_thread_messages` (storage.py 219-222): filter the
stored messages by `thread_id`, then Python's stable `sorted` by
`created_at`. -/
def get_thread_messages (s : Storage) (thread_id : Nat) : List Message :=
  List.insertionSort (fun a b => a.created_at ≤ b.created_at)
    ((dictValues s.messages).filter (fun m => decide (m.thread_id = thread_id)))

/-- `InMemoryStorage.get_threads_in_period`: inclusive bounds on
`created_at`. -/
def get_threads_in_period (s : Storage) (start_date end_date : Nat) : List Thread :=
  (dictValues s.threads).filter
    (fun t => decide (start_date ≤ t.created_at) && decide (t.created_at ≤ end_date))

/-- `InMemoryStorage.get_messages_in_period`: inclusive bounds on
`created_at`. -/
def get_messages_in_period (s : Storage) (start_date end_date : Nat) : List Message :=
  (dictValues s.messages).filter
    (fun m => decide (start_date ≤ m.created_at) && decide (m.created_at ≤ end_date))

/-- Result record of `/api/analytics/overview` (the `period_days` echo is
route glue and is omitted). -/
structure Overview where
  total_threads : Nat
  total_messages : Nat
  incoming_messages : Nat
  outgoing_messages : Nat
  threads_with_directives : Nat
  avg_response_time_seconds : ℚ
deriving DecidableEq

/-- Truthiness of `t.get("extra_directives")`: `None` and `[]` are falsy. -/
def directivesTruthy : Option (List String) → Bool
  | none => false
  | some l => !l.isEmpty

/-- Truthiness of `m.get("generation_time_seconds")`: `None` and `0.0`
are falsy. -/
def genTruthy : Option ℚ → Bool
  | none => false
  | some q => decide (q ≠ 0)

/-- The guard of the `generation_times` list comprehension in
`get_overview`: `m["message_type"] == "outgoing" and
m.get("generation_time_seconds") and m["generation_time_seconds"] > 0`. -/
def genCond (m : Message) : Bool :=
  decide (m.message_type = "outgoing") && genTruthy m.generation_time_seconds &&
    (match m.generation_time_seconds with
     | some q => decide (0 < q)
     | none => false)

/-- The `generation_times` list comprehension in `get_overview`. -/
def generation_times (messages : List Message) : List ℚ :=
  (messages.filter genCond).filterMap (fun m => m.generation_time_seconds)

/-- Python `round(x, 2)` on exact rationals. The spec (§4.2) leaves the
tie-breaking rule implementation-defined; round-half-up is used here. -/
def pyRound2 (q : ℚ) : ℚ := ((Rat.floor (q * 100 + 1 / 2) : ℤ) : ℚ) / 100

/-- `get_overview` (analytics_routes.py 16-60); `start_date`/`end_date`
stand for `now - timedelta(days)` and `now`. -/
def get_overview (s : Storage) (start_date end_date : Nat) : Overview :=
  let threads := get_threads_in_period s start_date end_date
  let messages := get_messages_in_period s start_date end_date
  let gts := generation_times messages
  ⟨threads.length, messages.length,
   (messages.filter (fun m => decide (m.message_type = "incoming"))).length,
   (messages.filter (fun m => decide (m.message_type = "outgoing"))).length,
   (threads.filter (fun t => directivesTruthy t.extra_directives)).length,
   if gts.isEmpty then 0 else pyRound2 (gts.sum / (gts.length : ℚ))⟩

/-- One `{"name": ..., "count": ...}` row of `/api/analytics/threads-by-context`. -/
structure CtxBucket where
  name : String
  count : Nat
deriving DecidableEq

/-- Truthiness of `thread.get("company_context_id")`: `None` and `0` are
falsy. -/
def ctxTruthy : Option Nat → Bool
  | none => false
  | some n => decide (n ≠ 0)

/-- One iteration of the `for thread in threads` loop of
`get_threads_by_context`; the accumulator is the pair
`(by_context, threads_without_context)`. -/
def ctxStep (contexts : List (Nat × Context)) (acc : List (String × Nat) × Nat)
    (t : Thread) : List (String × Nat) × Nat :=
  if ctxTruthy t.company_context_id then
    match t.company_context_id.bind (fun cid => dictGet contexts cid) with
    | some c => (dictSet c.name (dictGetD acc.1 c.name 0 + 1) acc.1, acc.2)
    | none => acc
  else
    (acc.1, acc.2 + 1)

/-- Whether a thread's context reference is truthy and resolves to an
existing context. -/
def resolvesB (contexts : List (Nat × Context)) (t : Thread) : Bool :=
  ctxTruthy t.company_context_id &&
    (t.company_context_id.bind (fun cid => dictGet contexts cid)).isSome

/-- Sum of the values of a `String`-keyed counting dict. -/
def pairsSum (bc : List (String × Nat)) : Nat :=
  (bc.map (fun kv => kv.2)).sum

/-- The two accumulators after the counting loop of
`get_threads_by_context`. -/
def ctxAccum (contexts : List (Nat × Context)) (threads : List Thread) :
    List (String × Nat) × Nat :=
  threads.foldl (ctxStep contexts) ([], 0)

/-- The `data` list built from `by_context.items()` in
`get_threads_by_context`. -/
def namedBuckets (contexts : List (Nat × Context)) (threads : List Thread) :
    List CtxBucket :=
  (ctxAccum contexts threads).1.map (fun kv => ⟨kv.1, kv.2⟩)

/-- The `threads_without_context` counter of `get_threads_by_context`. -/
def threadsWithoutContext (contexts : List (Nat × Context)) (threads : List Thread) :
    Nat :=
  (ctxAccum contexts threads).2

/-- `get_threads_by_context` (analytics_routes.py 91-124). -/
def get_threads_by_context (s : Storage) (start_date end_date : Nat) :
    List CtxBucket :=
  let threads := get_threads_in_period s start_date end_date
  namedBuckets s.contexts threads ++
    (if 0 < threadsWithoutContext s.contexts threads then
      [⟨"Без контекста", threadsWithoutContext s.contexts threads⟩]
     else [])

/-- One `{"date": ..., "daily": ..., "cumulative": ...}` row of
`/api/analytics/threads-growth`. -/
structure GrowthEntry where
  date : Nat
  daily : Nat
  cumulative : Nat
deriving DecidableEq

/-- Calendar date of a timestamp measured in hour ticks (`.date()`). -/
def dateOf (ts : Nat) : Nat := ts / 24

/-- One iteration of the counting loop of `get_threads_growth`:
`by_date[date_str] = by_date.get(date_str, 0) + 1`. -/
def growthCountStep (d : List (Nat × Nat)) (t : Thread) : List (Nat × Nat) :=
  dictSet (dateOf t.created_at) (dictGetD d (dateOf t.created_at) 0 + 1) d

/-- The `by_date` dict of `get_threads_growth`. -/
def growthByDate (threads : List Thread) : List (Nat × Nat) :=
  threads.foldl growthCountStep []

/-- One iteration of the cumulative loop of `get_threads_growth`; the
accumulator is `(cumulative, data)`. -/
def growthStep (by_date : List (Nat × Nat)) (acc : Nat × List GrowthEntry)
    (date : Nat) : Nat × List GrowthEntry :=
  let count := dictGetD by_date date 0
  (acc.1 + count, acc.2 ++ [⟨date, count, acc.1 + count⟩])

/-- Closed form of the cumulative loop of `get_threads_growth`: the rows
produced from a starting cumulative value `c` over the remaining sorted
dates (used to reason about the `foldl` by induction). -/
def growthList (bd : List (Nat × Nat)) (c : Nat) : List Nat → List GrowthEntry
  | [] => []
  | date :: rest =>
    ⟨date, dictGetD bd date 0, c + dictGetD bd date 0⟩ ::
      growthList bd (c + dictGetD bd date 0) rest

/-- `get_threads_growth` (analytics_routes.py 127-159). -/
def get_threads_growth (s : Storage) (start_date end_date : Nat) :
    List GrowthEntry :=
  let threads := get_threads_in_period s start_date end_date
  let by_date := growthByDate threads
  let sortedDates := List.insertionSort (fun a b => a ≤ b) (dictKeys by_date)
  (sortedDates.foldl (growthStep by_date) (0, [])).2

/-- One row of `/api/analytics/top-threads` (the ISO-8601 serialization of
the two timestamps at the boundary is modelled by the timestamps
themselves). -/
structure TopRow where
  id : Nat
  subject : String
  message_count : Nat
  created_at : Nat
  updated_at : Nat
deriving DecidableEq

/-- Python slice `l[:limit]` for an arbitrary (possibly negative) `limit`. -/
def pySlice {α : Type} (limit : Int) (l : List α) : List α :=
  if 0 ≤ limit then l.take limit.toNat
  else l.take ((l.length : Int) + limit).toNat

/-- The row built for one thread in `get_top_threads`. -/
def topRow (s : Storage) (t : Thread) : TopRow :=
  ⟨t.id, t.subject, (get_thread_messages s t.id).length, t.created_at, t.updated_at⟩

/-- `get_top_threads` (analytics_routes.py 162-193): build a row per
thread in the period, stable-sort descending by `message_count`
(`sorted(..., reverse=True)` keeps ties in encounter order), then slice
to `limit`. -/
def get_top_threads (s : Storage) (start_date end_date : Nat) (limit : Int) :
    List TopRow :=
  let threads := get_threads_in_period s start_date end_date
  let thread_data := threads.map (topRow s)
  pySlice limit
    (List.insertionSort (fun a b => b.message_count ≤ a.message_count) thread_data)

/-- `CacheService` state (cache_service.py): the enabled flag and the
`_cache` dict mapping keys to `(value, expiry)` pairs. Times are in
hours (`timedelta(hours=ttl_hours)` adds `ttl_hours` ticks) and may be
negative, hence integers. Keys: `_generate_key` hashes the canonical
JSON dump of `(prefix, args)` with SHA-256; collision-resistance is
modelled by taking the key to be the pair `(prefix, args)` itself. -/
structure CacheService (κ α : Type) where
  enabled : Bool
  cache : List ((String × κ) × (α × Int))

/-- The key of `CacheService._generate_key`. -/
def cacheKey {κ : Type} (pfx : String) (args : κ) : String × κ := (pfx, args)

/-- `CacheService.get` (cache_service.py 25-43): disabled means `None`;
otherwise a hit before expiry returns the value, an expired entry is
evicted and misses, an absent key misses. The `except` branch is dead in
the model (key derivation and dict access cannot fail). -/
def cache_get {κ α : Type} [DecidableEq κ] (s : CacheService κ α) (now : Int)
    (pfx : String) (args : κ) : Option α × CacheService κ α :=
  if s.enabled then
    match dictGet s.cache (cacheKey pfx args) with
    | some va =>
        if now < va.2 then (some va.1, s)
        else (none, ⟨s.enabled, dictDelete (cacheKey pfx args) s.cache⟩)
    | none => (none, s)
  else (none, s)

/-- `CacheService.set` (cache_service.py 45-58): disabled means `False`
and no write; otherwise store `(value, now + ttl_hours)` and return
`True`. -/
def cache_set {κ α : Type} [DecidableEq κ] (s : CacheService κ α) (now : Int)
    (pfx : String) (value : α) (ttl_hours : Int) (args : κ) :
    Bool × CacheService κ α :=
  if s.enabled then
    (true, ⟨s.enabled, dictSet (cacheKey pfx args) (value, now + ttl_hours) s.cache⟩)
  else (false, s)

/-- Spec-side list (refinement target for the overview average), written
from the spec's words: the `generation_time_seconds` values "over
outgoing messages where the value is present and > 0". -/
def specResponseTimes (messages : List Message) : List ℚ :=
  messages.filterMap (fun m =>
    if m.message_type = "outgoing" then
      match m.generation_time_seconds with
      | some q => if 0 < q then some q else none
      | none => none
    else none)

/-- Spec-side average (refinement target), written from the spec's words:
"mean of generation_time_seconds over outgoing messages where the value
is present and > 0, rounded to 2 decimals, else 0.0". -/
def specAvgResponseTime (messages : List Message) : ℚ :=
  if specResponseTimes messages = [] then 0
  else pyRound2 ((specResponseTimes messages).sum / ((specResponseTimes messages).length : ℚ))

/-! ### Concrete fixtures used by counterexamples and witnesses -/

/-- A thread whose `company_context_id` points at a context id that is
not present in the context dict. -/
def exThreadDangling : Thread := ⟨1, "s", some 5, none, none, 0, 0⟩

/-- A storage holding only `exThreadDangling` (no contexts at all). -/
def exStorageC2 : Storage := ⟨[], [(1, exThreadDangling)], [], 1, 2, 1⟩

/-- A thread created on calendar day 1 (hour tick 25). -/
def exThreadA : Thread := ⟨1, "a", none, none, none, 25, 25⟩

/-- A thread created on calendar day 0 (hour tick 2). -/
def exThreadB : Thread := ⟨2, "b", none, none, none, 2, 2⟩

/-- A storage holding two threads on two different days. -/
def exStorageG : Storage := ⟨[], [(1, exThreadA), (2, exThreadB)], [], 1, 3, 1⟩

/-- An incoming message without a generation time. -/
def exMsgIn : Message := ⟨1, 1, "incoming", "s", "b", none, none, none, 0⟩

/-- An outgoing message generated in 2.0 seconds. -/
def exMsgOut2 : Message := ⟨2, 1, "outgoing", "s", "b", none, none, some 2, 1⟩

/-- An outgoing message generated in 4.0 seconds. -/
def exMsgOut4 : Message := ⟨3, 1, "outgoing", "s", "b", none, none, some 4, 2⟩

/-- The storage of the overview scenario of spec §8: one incoming and two
outgoing messages with generation times 2.0 and 4.0. -/
def exStorageO : Storage := ⟨[], [], [(1, exMsgIn), (2, exMsgOut2), (3, exMsgOut4)], 1, 1, 4⟩

/-! ### Association-list dict lemmas -/

theorem dictGet_nil {K V : Type} [DecidableEq K] (k : K) :
    dictGet ([] : List (K × V)) k = none := rfl

theorem dictGet_cons {K V : Type} [DecidableEq K] (kv : K × V) (rest : List (K × V))
    (k2 : K) :
    dictGet (kv :: rest) k2 = if kv.1 = k2 then some kv.2 else dictGet rest k2 := by
  by_cases h : kv.1 = k2 <;> simp [dictGet, h]

theorem dictSet_cons {K V : Type} [DecidableEq K] (k : K) (v : V) (kv : K × V)
    (rest : List (K × V)) :
    dictSet k v (kv :: rest) =
      if kv.1 = k then (k, v) :: rest else kv :: dictSet k v rest :=
  rfl

theorem dictGet_dictSet_self {K V : Type} [DecidableEq K] (k : K) (v : V) :
    ∀ d : List (K × V), dictGet (dictSet k v d) k = some v
  | [] => by simp [dictGet, dictSet]
  | kv :: rest => by
    by_cases h : kv.1 = k
    · simp [dictSet_cons, h, dictGet_cons]
    · simpa [dictSet_cons, h, dictGet_cons] using dictGet_dictSet_self k v rest

theorem dictGet_dictSet_ne {K V : Type} [DecidableEq K] (k k2 : K) (v : V)
    (hne : k2 ≠ k) : ∀ d : List (K × V), dictGet (dictSet k v d) k2 = dictGet d k2
  | [] => by simp [dictGet, dictSet, Ne.symm hne]
  | kv :: rest => by
    by_cases h : kv.1 = k
    · have hk2 : ¬ kv.1 = k2 := fun hc => hne (hc.symm.trans h)
      simp [dictSet_cons, h, dictGet_cons, Ne.symm hne, hk2]
    · by_cases h2 : kv.1 = k2
      · rw [dictSet_cons, if_neg h, dictGet_cons, if_pos h2, dictGet_cons, if_pos h2]
      · rw [dictSet_cons, if_neg h, dictGet_cons, if_neg h2, dictGet_cons, if_neg h2]
        exact dictGet_dictSet_ne k k2 v hne rest

/-! ### Claim C1 -/

/-- C1 (amended): `create_thread` performs no normalization at all — the
stored and returned thread carries the `extra_directives` and
`custom_prompt` arguments verbatim (an empty list stays an empty list and
a blank prompt stays blank), together with the other arguments and the
next thread id. -/
theorem create_thread_keeps_arguments_verbatim (s : Storage) (now : Nat)
    (subject : String) (company_context_id : Option Nat)
    (extra_directives : Option (List String)) (custom_prompt : Option String) :
    (create_thread s now subject company_context_id extra_directives custom_prompt).1 =
      ⟨s.thread_counter, subject, company_context_id, extra_directives, custom_prompt,
        now, now⟩ ∧
    dictGet (create_thread s now subject company_context_id extra_directives
        custom_prompt).2.threads s.thread_counter =
      some (create_thread s now subject company_context_id extra_directives
        custom_prompt).1 :=
  ⟨rfl, dictGet_dictSet_self _ _ _⟩

/-- C1 (counterexample): creating a thread with `extra_directives = []`
and `custom_prompt = "   "` stores both fields present and unnormalized,
contradicting the claimed empty-to-absent / blank-to-absent
normalization. -/
theorem create_thread_counterexample :
    (create_thread emptyStorage 0 "s" none (some []) (some "   ")).1.extra_directives ≠ none ∧
    (create_thread emptyStorage 0 "s" none (some []) (some "   ")).1.extra_directives = some [] ∧
    (create_thread emptyStorage 0 "s" none (some []) (some "   ")).1.custom_prompt ≠ none ∧
    (create_thread emptyStorage 0 "s" none (some []) (some "   ")).1.custom_prompt = some "   " ∧
    dictGet (create_thread emptyStorage 0 "s" none (some []) (some "   ")).2.threads 1 =
      some (create_thread emptyStorage 0 "s" none (some []) (some "   ")).1 := by
  decide

/-! ### Claim C3 -/

/-- C3: while the cache is enabled, a `set` immediately followed by a
`get` with the identical namespace and arguments returns the stored value
when the TTL has not yet elapsed (`u < t + ttl_hours`) and returns absent
once it has elapsed; while disabled, `get` always returns absent and
`set` always returns `false`. -/
theorem cache_set_then_get {κ α : Type} [DecidableEq κ] (s : CacheService κ α)
    (t u : Int) (pfx : String) (v : α) (ttl_hours : Int) (args : κ) :
    (s.enabled = true →
      ((u < t + ttl_hours →
          (cache_get (cache_set s t pfx v ttl_hours args).2 u pfx args).1 = some v) ∧
       (t + ttl_hours ≤ u →
          (cache_get (cache_set s t pfx v ttl_hours args).2 u pfx args).1 = none))) ∧
    (s.enabled = false →
      (cache_get s u pfx args).1 = none ∧
      (cache_set s t pfx v ttl_hours args).1 = false) := by
  constructor
  · intro he
    have hset : (cache_set s t pfx v ttl_hours args).2 =
        ⟨s.enabled, dictSet (cacheKey pfx args) (v, t + ttl_hours) s.cache⟩ := by
      simp [cache_set, he]
    constructor
    · intro hu
      simp [cache_get, hset, he, dictGet_dictSet_self, hu]
    · intro hu
      simp [cache_get, hset, he, dictGet_dictSet_self, not_lt.mpr hu]
  · intro he
    simp [cache_get, cache_set, he]

/-- C3 witness: a concrete enabled cache hit before expiry, the same
lookup after expiry, and a disabled `get`/`set` pair. -/
theorem cache_set_then_get_witness :
    (cache_get (cache_set (⟨true, []⟩ : CacheService Nat Nat) 0 "analysis" 7 12 1).2
        3 "analysis" 1).1 = some 7 ∧
    (cache_get (cache_set (⟨true, []⟩ : CacheService Nat Nat) 0 "analysis" 7 12 1).2
        12 "analysis" 1).1 = none ∧
    (cache_get (⟨false, []⟩ : CacheService Nat Nat) 3 "generation" 1).1 = none ∧
    (cache_set (⟨false, []⟩ : CacheService Nat Nat) 0 "generation" 7 12 1).1 = false := by
  refine ⟨?_, ?_, ?_, ?_⟩
  · exact ((cache_set_then_get (⟨true, []⟩ : CacheService Nat Nat) 0 3 "analysis" 7 12 1).1
      rfl).1 (by decide)
  · exact ((cache_set_then_get (⟨true, []⟩ : CacheService Nat Nat) 0 12 "analysis" 7 12 1).1
      rfl).2 (by decide)
  · exact ((cache_set_then_get (⟨false, []⟩ : CacheService Nat Nat) 0 3 "generation" 7 12 1).2
      rfl).1
  · exact ((cache_set_then_get (⟨false, []⟩ : CacheService Nat Nat) 0 3 "generation" 7 12 1).2
      rfl).2

/-! ### Claim C8 -/

/-- C8: `add_message` is total — for any `thread_id`, existing or not, the
message is built from the arguments, stored and returned; the only effect
on the thread dict is that the referenced thread, exactly when it exists,
gets `updated_at := now` (every other thread, and every other field of
that thread, is unchanged; when the thread does not exist the thread dict
is untouched). -/
theorem add_message_total_and_frame (s : Storage) (now thread_id : Nat)
    (message_type subject body : String) (sender_name sender_position : Option String)
    (generation_time_seconds : Option ℚ) (msg : Message) (s2 : Storage)
    (h : add_message s now thread_id message_type subject body sender_name
        sender_position generation_time_seconds = (msg, s2)) :
    msg = ⟨s.message_counter, thread_id, message_type, subject, body, sender_name,
        sender_position, generation_time_seconds, now⟩ ∧
    dictGet s2.messages msg.id = some msg ∧
    (∀ tid2, tid2 ≠ thread_id → dictGet s2.threads tid2 = dictGet s.threads tid2) ∧
    (∀ t : Thread, dictGet s.threads thread_id = some t →
        dictGet s2.threads thread_id = some { t with updated_at := now }) ∧
    (dictGet s.threads thread_id = none → s2.threads = s.threads) ∧
    s2.contexts = s.contexts ∧ s2.thread_counter = s.thread_counter ∧
    s2.message_counter = s.message_counter + 1 := by
  have hmsg : msg = (add_message s now thread_id message_type subject body sender_name
      sender_position generation_time_seconds).1 := by rw [h]
  have hs2 : s2 = (add_message s now thread_id message_type subject body sender_name
      sender_position generation_time_seconds).2 := by rw [h]
  subst hmsg hs2
  refine ⟨rfl, dictGet_dictSet_self _ _ _, ?_, ?_, ?_, rfl, rfl, rfl⟩
  · intro tid2 hne
    simp only [add_message]
    cases ht : dictGet s.threads thread_id with
    | none => rfl
    | some t => exact dictGet_dictSet_ne _ _ _ hne _
  · intro t ht
    simp only [add_message, ht]
    exact dictGet_dictSet_self _ _ _
  · intro ht
    simp only [add_message, ht]

/-- C8 witness: adding a message for the dangling thread id 42 on the
empty storage succeeds, returns the stored message and leaves the (empty)
thread dict untouched. -/
theorem add_message_total_and_frame_witness :
    (add_message emptyStorage 5 42 "incoming" "s" "b" none none none).1 =
      ⟨1, 42, "incoming", "s", "b", none, none, none, 5⟩ ∧
    (add_message emptyStorage 5 42 "incoming" "s" "b" none none none).2.threads = [] := by
  have h := add_message_total_and_frame emptyStorage 5 42 "incoming" "s" "b" none none
    none (add_message emptyStorage 5 42 "incoming" "s" "b" none none none).1
    (add_message emptyStorage 5 42 "incoming" "s" "b" none none none).2 rfl
  exact ⟨h.1, (h.2.2.2.2.1 (by decide)).trans rfl⟩

/-! ### Claim C9 -/

/-- C9: on an existing thread, `update_thread_directives` with a `none`
argument leaves the corresponding field unchanged; a `some` argument
clears `extra_directives` exactly for the empty list and `custom_prompt`
exactly for a blank string; besides `extra_directives`, `custom_prompt`
and `updated_at` every thread field is unchanged, and no other thread and
no other collection is touched. -/
theorem update_thread_directives_none_frame (s : Storage) (now thread_id : Nat)
    (extra_directives : Option (List String)) (custom_prompt : Option String)
    (t : Thread) (ht : dictGet s.threads thread_id = some t) :
    ∃ t2 : Thread,
      (update_thread_directives s now thread_id extra_directives custom_prompt).1 =
        some t2 ∧
      dictGet (update_thread_directives s now thread_id extra_directives
          custom_prompt).2.threads thread_id = some t2 ∧
      (extra_directives = none → t2.extra_directives = t.extra_directives) ∧
      (custom_prompt = none → t2.custom_prompt = t.custom_prompt) ∧
      (∀ l, extra_directives = some l → (t2.extra_directives = none ↔ l = [])) ∧
      (∀ p, custom_prompt = some p → (t2.custom_prompt = none ↔ pyStrip p = "")) ∧
      t2.id = t.id ∧ t2.subject = t.subject ∧
      t2.company_context_id = t.company_context_id ∧
      t2.created_at = t.created_at ∧ t2.updated_at = now ∧
      (∀ tid2, tid2 ≠ thread_id →
        dictGet (update_thread_directives s now thread_id extra_directives
            custom_prompt).2.threads tid2 = dictGet s.threads tid2) ∧
      (update_thread_directives s now thread_id extra_directives
          custom_prompt).2.messages = s.messages ∧
      (update_thread_directives s now thread_id extra_directives
          custom_prompt).2.contexts = s.contexts := by
  refine ⟨⟨t.id, t.subject, t.company_context_id,
      (match extra_directives with
       | none => t.extra_directives
       | some l => if l.isEmpty then none else some l),
      (match custom_prompt with
       | none => t.custom_prompt
       | some p => if pyStrip p = "" then none else some (pyStrip p)),
      t.created_at, now⟩, ?_, ?_, ?_, ?_, ?_, ?_, rfl, rfl, rfl, rfl, rfl, ?_, ?_, ?_⟩
  · simp [update_thread_directives, ht]
  · simp [update_thread_directives, ht, dictGet_dictSet_self]
  · intro he; subst he; rfl
  · intro hc; subst hc; rfl
  · intro l he
    subst he
    cases l with
    | nil => simp
    | cons a as => simp
  · intro p hc
    subst hc
    by_cases hp : pyStrip p = "" <;> simp [hp]
  · intro tid2 hne
    simp [update_thread_directives, ht, dictGet_dictSet_ne _ _ _ hne]
  · simp [update_thread_directives, ht]
  · simp [update_thread_directives, ht]

/-- C9 witness: a thread created with directives `["a"]` and prompt `"x"`
is updated with both arguments `none`; both fields survive and only
`updated_at` moves to the update time. -/
theorem update_thread_directives_none_frame_witness :
    ∃ t2 : Thread,
      (update_thread_directives (create_thread emptyStorage 0 "s" none (some ["a"])
          (some "x")).2 7 1 none none).1 = some t2 ∧
      t2.extra_directives = some ["a"] ∧ t2.custom_prompt = some "x" ∧
      t2.updated_at = 7 := by
  obtain ⟨t2, h1, h2, h3, h4, h5, h6, h7, h8, h9, h10, h11, h12, h13, h14⟩ :=
    update_thread_directives_none_frame
      (create_thread emptyStorage 0 "s" none (some ["a"]) (some "x")).2 7 1 none none
      ⟨1, "s", none, some ["a"], some "x", 0, 0⟩ (by decide)
  exact ⟨t2, h1, by rw [h3 rfl], by rw [h4 rfl], h11⟩

/-! ### Stable sorting and slicing helpers -/

/-- A stable sort does not reorder elements that are mutual ties of the
ordering: filtering a tie class out of the sorted list gives exactly the
same list as filtering it out of the input. -/
theorem insertionSort_filter_of_ties {α : Type} (r : α → α → Prop) [DecidableRel r]
    (p : α → Bool) (hp : ∀ a b, p a = true → p b = true → r a b) (l : List α) :
    (List.insertionSort r l).filter p = l.filter p := by
  have hpair : (l.filter p).Pairwise r :=
    List.pairwise_of_forall_mem_list (fun a ha b hb =>
      hp a b (List.of_mem_filter ha) (List.of_mem_filter hb))
  have hsub : List.Sublist (l.filter p) (List.insertionSort r l) :=
    List.sublist_insertionSort hpair (List.filter_sublist l)
  have hsub2 : List.Sublist ((l.filter p).filter p) ((List.insertionSort r l).filter p) :=
    hsub.filter p
  rw [List.filter_filter] at hsub2
  have hfix : l.filter (fun a => p a && p a) = l.filter p :=
    List.filter_congr (fun a _ => Bool.and_self (p a))
  rw [hfix] at hsub2
  have hperm : List.Perm ((List.insertionSort r l).filter p) (l.filter p) :=
    (List.perm_insertionSort r l).filter p
  exact (hsub2.eq_of_length hperm.length_eq.symm).symm

theorem pySlice_sublist {α : Type} (limit : Int) (l : List α) :
    List.Sublist (pySlice limit l) l := by
  unfold pySlice
  split <;> exact List.take_sublist _ _

theorem pySlice_length_le {α : Type} (limit : Int) (l : List α) (h : 0 ≤ limit) :
    ((pySlice limit l).length : Int) ≤ limit := by
  unfold pySlice
  rw [if_pos h]
  have h1 : (l.take limit.toNat).length ≤ limit.toNat := by
    simp [List.length_take]
  calc ((l.take limit.toNat).length : Int) ≤ (limit.toNat : Int) := by exact_mod_cast h1
    _ = limit := Int.toNat_of_nonneg h

/-! ### Claim C10 -/

/-- C10: for every `thread_id` — existing or not — `get_thread_messages`
returns exactly the stored messages whose `thread_id` equals the argument
(a permutation of that filter), in ascending `created_at` order, and the
empty list when no such message exists; the operation is total, so no
error is possible. -/
theorem get_thread_messages_spec (s : Storage) (thread_id : Nat) :
    List.Perm (get_thread_messages s thread_id)
      ((dictValues s.messages).filter (fun m => decide (m.thread_id = thread_id))) ∧
    (get_thread_messages s thread_id).Pairwise
      (fun a b => a.created_at ≤ b.created_at) ∧
    ((∀ m ∈ dictValues s.messages, m.thread_id ≠ thread_id) →
      get_thread_messages s thread_id = []) := by
  refine ⟨List.perm_insertionSort _ _, ?_, ?_⟩
  · haveI : IsTotal Message (fun a b => a.created_at ≤ b.created_at) :=
      ⟨fun a b => Nat.le_total _ _⟩
    haveI : IsTrans Message (fun a b => a.created_at ≤ b.created_at) :=
      ⟨fun _ _ _ h1 h2 => Nat.le_trans h1 h2⟩
    exact List.sorted_insertionSort _ _
  · intro hnone
    have hf : (dictValues s.messages).filter
        (fun m => decide (m.thread_id = thread_id)) = [] := by
      rw [List.filter_eq_nil_iff]
      intro m hm
      simpa using hnone m hm
    simp [get_thread_messages, hf]

/-- C10 witness: on the empty storage, thread id 5 has no messages and
the result is the empty list. -/
theorem get_thread_messages_spec_witness :
    get_thread_messages emptyStorage 5 = [] :=
  (get_thread_messages_spec emptyStorage 5).2.2 (by decide)

/-! ### Claim C4 -/

/-- C4 (amended): for every nonnegative `limit` the top-threads result
has at most `limit` rows (for a negative `limit` Python slicing instead
drops rows from the end, see the counterexample); for every `limit` the
result is sorted descending by `message_count`, rows with equal
`message_count` keep their encounter order (the filtered tie class is a
sublist of the unsorted row list), and every row is the row of a thread
of the period, carrying that thread's message count. -/
theorem get_top_threads_spec (s : Storage) (start_date end_date : Nat) (limit : Int) :
    (0 ≤ limit → ((get_top_threads s start_date end_date limit).length : Int) ≤ limit) ∧
    (get_top_threads s start_date end_date limit).Pairwise
      (fun a b => b.message_count ≤ a.message_count) ∧
    (∀ c : Nat, List.Sublist
      ((get_top_threads s start_date end_date limit).filter
        (fun row => decide (row.message_count = c)))
      (((get_threads_in_period s start_date end_date).map (topRow s)).filter
        (fun row => decide (row.message_count = c)))) ∧
    (∀ row ∈ get_top_threads s start_date end_date limit,
      ∃ t ∈ get_threads_in_period s start_date end_date, row = topRow s t) := by
  haveI : IsTotal TopRow (fun a b => b.message_count ≤ a.message_count) :=
    ⟨fun a b => Nat.le_total _ _⟩
  haveI : IsTrans TopRow (fun a b => b.message_count ≤ a.message_count) :=
    ⟨fun _ _ _ h1 h2 => Nat.le_trans h2 h1⟩
  refine ⟨?_, ?_, ?_, ?_⟩
  · intro h
    exact pySlice_length_le _ _ h
  · exact (List.sorted_insertionSort _ _).sublist (pySlice_sublist _ _)
  · intro c
    have heq : (List.insertionSort (fun a b => b.message_count ≤ a.message_count)
          ((get_threads_in_period s start_date end_date).map (topRow s))).filter
          (fun row => decide (row.message_count = c)) =
        ((get_threads_in_period s start_date end_date).map (topRow s)).filter
          (fun row => decide (row.message_count = c)) := by
      apply insertionSort_filter_of_ties
      intro a b ha hb
      have ha2 : a.message_count = c := by simpa using ha
      have hb2 : b.message_count = c := by simpa using hb
      rw [ha2, hb2]
    rw [← heq]
    exact (pySlice_sublist _ _).filter _
  · intro row hrow
    have hmem : row ∈ List.insertionSort (fun a b => b.message_count ≤ a.message_count)
        ((get_threads_in_period s start_date end_date).map (topRow s)) :=
      (pySlice_sublist _ _).subset hrow
    rw [List.mem_insertionSort] at hmem
    obtain ⟨t, ht, hrt⟩ := List.mem_map.mp hmem
    exact ⟨t, ht, hrt.symm⟩

/-- C4 witness: with two stored threads and `limit = 2` the result
length is at most 2 and the first row comes from a thread of the
period. -/
theorem get_top_threads_spec_witness :
    ((get_top_threads exStorageG 0 100 2).length : Int) ≤ 2 ∧
    ∃ t ∈ get_threads_in_period exStorageG 0 100,
      (⟨1, "a", 0, 25, 25⟩ : TopRow) = topRow exStorageG t := by
  have h := get_top_threads_spec exStorageG 0 100 2
  exact ⟨h.1 (by decide), h.2.2.2 ⟨1, "a", 0, 25, 25⟩ (by decide)⟩

/-- C4 counterexample: the route accepts a negative `limit` (no lower
bound is declared on the query parameter) and Python's `[:limit]` then
drops rows from the end, so with two stored threads and `limit = -1` the
result still has one row, refuting "length at most limit" for every
limit. -/
theorem get_top_threads_counterexample :
    ¬ (((get_top_threads exStorageG 0 100 (-1)).length : Int) ≤ -1) := by decide

/-! ### Claim C7 -/

theorem length_split_in_out : ∀ (msgs : List Message),
    (∀ m ∈ msgs, m.message_type = "incoming" ∨ m.message_type = "outgoing") →
    msgs.length = (msgs.filter (fun m => decide (m.message_type = "incoming"))).length
      + (msgs.filter (fun m => decide (m.message_type = "outgoing"))).length
  | [], _ => rfl
  | m :: rest, h => by
    have hr := length_split_in_out rest (fun x hx => h x (List.mem_cons_of_mem m hx))
    rcases h m (List.mem_cons_self m rest) with hm | hm
    · simp [List.filter_cons, hm]
      omega
    · simp [List.filter_cons, hm]
      omega

/-- C7: whenever every message of the period carries one of the two
message types (the data model's enum), the overview satisfies
`total_messages = incoming_messages + outgoing_messages`. -/
theorem get_overview_total_split (s : Storage) (start_date end_date : Nat)
    (h : ∀ m ∈ get_messages_in_period s start_date end_date,
      m.message_type = "incoming" ∨ m.message_type = "outgoing") :
    (get_overview s start_date end_date).total_messages =
      (get_overview s start_date end_date).incoming_messages +
        (get_overview s start_date end_date).outgoing_messages := by
  simpa [get_overview] using length_split_in_out _ h

/-- C7 witness: the three-message scenario storage has 3 = 1 + 2. -/
theorem get_overview_total_split_witness :
    (get_overview exStorageO 0 10).total_messages =
      (get_overview exStorageO 0 10).incoming_messages +
        (get_overview exStorageO 0 10).outgoing_messages :=
  get_overview_total_split exStorageO 0 10 (by decide)

/-! ### Claim C6 -/

/-- The code's selection of generation times (truthiness plus `> 0`
guard) picks exactly the values the spec describes: present and strictly
positive, on outgoing messages. -/
theorem generation_times_eq_spec : ∀ msgs : List Message,
    generation_times msgs = specResponseTimes msgs
  | [] => rfl
  | m :: rest => by
    have ih := generation_times_eq_spec rest
    by_cases ho : m.message_type = "outgoing"
    · cases hg : m.generation_time_seconds with
      | none =>
        simp [generation_times, specResponseTimes, genCond, genTruthy, ho, hg,
          List.filter_cons, List.filterMap_cons] at *
        exact ih
      | some q =>
        by_cases hq : 0 < q
        · have hq0 : q ≠ 0 := ne_of_gt hq
          simp [generation_times, specResponseTimes, genCond, genTruthy, ho, hg, hq, hq0,
            List.filter_cons, List.filterMap_cons] at *
          exact ih
        · simp [generation_times, specResponseTimes, genCond, genTruthy, ho, hg, hq,
            List.filter_cons, List.filterMap_cons] at *
          exact ih
    · simp [generation_times, specResponseTimes, genCond, ho,
        List.filter_cons, List.filterMap_cons] at *
      exact ih

/-- C6: `avg_response_time_seconds` equals the mean of the generation
times of exactly the outgoing messages with a present, strictly positive
value, rounded to 2 decimals, and 0 when no such message exists
(`specAvgResponseTime` is that spec-side definition); and the §8
scenario — one incoming message plus outgoing messages with generation
times 2.0 and 4.0 — yields counts 1 and 2 and average 3.0. -/
theorem get_overview_avg_matches_spec_and_scenario (s : Storage)
    (start_date end_date : Nat) :
    (get_overview s start_date end_date).avg_response_time_seconds =
      specAvgResponseTime (get_messages_in_period s start_date end_date) ∧
    (get_overview exStorageO 0 10).incoming_messages = 1 ∧
    (get_overview exStorageO 0 10).outgoing_messages = 2 ∧
    (get_overview exStorageO 0 10).avg_response_time_seconds = 3 := by
  refine ⟨?_, by decide, by decide, ?_⟩
  · show (if (generation_times (get_messages_in_period s start_date end_date)).isEmpty
        then (0 : ℚ)
        else pyRound2 ((generation_times (get_messages_in_period s start_date end_date)).sum /
          ((generation_times (get_messages_in_period s start_date end_date)).length : ℚ))) =
      specAvgResponseTime (get_messages_in_period s start_date end_date)
    rw [generation_times_eq_spec]
    by_cases hnil : specResponseTimes (get_messages_in_period s start_date end_date) = []
    · simp [specAvgResponseTime, hnil]
    · simp [specAvgResponseTime, hnil, List.isEmpty_iff]
  · have hg : generation_times (get_messages_in_period exStorageO 0 10) = [2, 4] := by
      decide
    show (if (generation_times (get_messages_in_period exStorageO 0 10)).isEmpty
        then (0 : ℚ)
        else pyRound2 ((generation_times (get_messages_in_period exStorageO 0 10)).sum /
          ((generation_times (get_messages_in_period exStorageO 0 10)).length : ℚ))) = 3
    rw [hg]
    norm_num [pyRound2, Rat.floor]

/-! ### Claim C2 -/

theorem pairsSum_dictSet_incr : ∀ (bc : List (String × Nat)) (k : String),
    pairsSum (dictSet k (dictGetD bc k 0 + 1) bc) = pairsSum bc + 1
  | [], k => by simp [pairsSum, dictSet, dictGetD, dictGet]
  | kv :: rest, k => by
    by_cases h : kv.1 = k
    · have hget : dictGetD (kv :: rest) k 0 = kv.2 := by
        simp [dictGetD, dictGet_cons, h]
      rw [hget, dictSet_cons, if_pos h]
      simp [pairsSum]
      omega
    · have hget : dictGetD (kv :: rest) k 0 = dictGetD rest k 0 := by
        simp [dictGetD, dictGet_cons, h]
      rw [hget, dictSet_cons, if_neg h]
      have ih := pairsSum_dictSet_incr rest k
      simp [pairsSum] at ih
      simp [pairsSum]
      omega

theorem ctxStep_snd (contexts : List (Nat × Context))
    (acc : List (String × Nat) × Nat) (t : Thread) :
    (ctxStep contexts acc t).2 =
      acc.2 + (if ctxTruthy t.company_context_id then 0 else 1) := by
  unfold ctxStep
  by_cases htr : ctxTruthy t.company_context_id
  · rw [if_pos htr, if_pos htr]
    cases t.company_context_id.bind (fun cid => dictGet contexts cid) <;> rfl
  · rw [if_neg htr, if_neg htr]

theorem ctxStep_fst_sum (contexts : List (Nat × Context))
    (acc : List (String × Nat) × Nat) (t : Thread) :
    pairsSum (ctxStep contexts acc t).1 =
      pairsSum acc.1 + (if resolvesB contexts t then 1 else 0) := by
  unfold ctxStep resolvesB
  by_cases htr : ctxTruthy t.company_context_id
  · rw [if_pos htr]
    cases hres : t.company_context_id.bind (fun cid => dictGet contexts cid) with
    | none => simp [htr, hres]
    | some c => simp [htr, hres, pairsSum_dictSet_incr]
  · rw [if_neg htr]
    simp [htr]

theorem ctxAccum_foldl_without (contexts : List (Nat × Context)) :
    ∀ (threads : List Thread) (acc : List (String × Nat) × Nat),
    (threads.foldl (ctxStep contexts) acc).2 =
      acc.2 + threads.countP (fun t => !ctxTruthy t.company_context_id)
  | [], acc => by simp
  | t :: rest, acc => by
    rw [List.foldl_cons, ctxAccum_foldl_without contexts rest _, ctxStep_snd,
      List.countP_cons]
    by_cases htr : ctxTruthy t.company_context_id <;> simp [htr] <;> omega

theorem ctxAccum_foldl_sum (contexts : List (Nat × Context)) :
    ∀ (threads : List Thread) (acc : List (String × Nat) × Nat),
    pairsSum (threads.foldl (ctxStep contexts) acc).1 =
      pairsSum acc.1 + threads.countP (resolvesB contexts)
  | [], acc => by simp
  | t :: rest, acc => by
    rw [List.foldl_cons, ctxAccum_foldl_sum contexts rest _, ctxStep_fst_sum,
      List.countP_cons]
    by_cases hres : resolvesB contexts t <;> simp [hres] <;> omega

/-- C2 (amended): the result is the named buckets followed — exactly when
the count is positive — by the single catch-all bucket "Без контекста",
whose count is the number of period threads whose `company_context_id` is
absent (or the falsy id 0); a thread whose context id does not resolve to
an existing context is counted in no bucket at all (the named buckets
together count exactly the threads whose context resolves). -/
theorem get_threads_by_context_spec (s : Storage) (start_date end_date : Nat) :
    get_threads_by_context s start_date end_date =
      namedBuckets s.contexts (get_threads_in_period s start_date end_date) ++
        (if 0 < (get_threads_in_period s start_date end_date).countP
              (fun t => !ctxTruthy t.company_context_id) then
          [⟨"Без контекста", (get_threads_in_period s start_date end_date).countP
              (fun t => !ctxTruthy t.company_context_id)⟩]
         else []) ∧
    ((namedBuckets s.contexts (get_threads_in_period s start_date end_date)).map
        (fun bkt => bkt.count)).sum =
      (get_threads_in_period s start_date end_date).countP (resolvesB s.contexts) := by
  have hwc : threadsWithoutContext s.contexts
      (get_threads_in_period s start_date end_date) =
      (get_threads_in_period s start_date end_date).countP
        (fun t => !ctxTruthy t.company_context_id) := by
    unfold threadsWithoutContext ctxAccum
    rw [ctxAccum_foldl_without]
    simp
  constructor
  · rw [get_threads_by_context, hwc]
  · have hsum : pairsSum (ctxAccum s.contexts
        (get_threads_in_period s start_date end_date)).1 =
        (get_threads_in_period s start_date end_date).countP (resolvesB s.contexts) := by
      unfold ctxAccum
      rw [ctxAccum_foldl_sum]
      simp [pairsSum]
    rw [← hsum]
    unfold namedBuckets pairsSum
    rw [List.map_map]
    congr 1

/-- C2 counterexample: a period thread referencing the deleted/absent
context id 5 is dropped entirely — the aggregation returns no bucket at
all, not a catch-all bucket of count 1 as the claim requires for
non-resolving context ids. -/
theorem get_threads_by_context_counterexample :
    get_threads_in_period exStorageC2 0 10 = [exThreadDangling] ∧
    exThreadDangling.company_context_id = some 5 ∧
    get_context exStorageC2 5 = none ∧
    get_threads_by_context exStorageC2 0 10 = [] := by decide

/-! ### Claim C5 -/

theorem dictSet_mem {K V : Type} [DecidableEq K] (k : K) (v : V) :
    ∀ (d : List (K × V)), ∀ kv ∈ dictSet k v d, kv = (k, v) ∨ kv ∈ d
  | [], kv, h => by
    simp [dictSet] at h
    exact Or.inl h
  | kv0 :: rest, kv, h => by
    by_cases hk : kv0.1 = k
    · rw [dictSet_cons, if_pos hk] at h
      rcases List.mem_cons.mp h with h1 | h1
      · exact Or.inl h1
      · exact Or.inr (List.mem_cons_of_mem _ h1)
    · rw [dictSet_cons, if_neg hk] at h
      rcases List.mem_cons.mp h with h1 | h1
      · exact Or.inr (h1 ▸ List.mem_cons_self _ _)
      · rcases dictSet_mem k v rest kv h1 with h2 | h2
        · exact Or.inl h2
        · exact Or.inr (List.mem_cons_of_mem _ h2)

theorem dictKeys_dictSet_mem {K V : Type} [DecidableEq K] (k : K) (v : V)
    (d : List (K × V)) : ∀ x ∈ dictKeys (dictSet k v d), x = k ∨ x ∈ dictKeys d := by
  intro x hx
  obtain ⟨kv, hkv, hxeq⟩ := List.mem_map.mp hx
  rcases dictSet_mem k v d kv hkv with h | h
  · exact Or.inl (by rw [← hxeq, h])
  · exact Or.inr (List.mem_map.mpr ⟨kv, h, hxeq⟩)

theorem dictKeys_dictSet_nodup {K V : Type} [DecidableEq K] (k : K) (v : V) :
    ∀ (d : List (K × V)), (dictKeys d).Nodup → (dictKeys (dictSet k v d)).Nodup
  | [], _ => by simp [dictSet, dictKeys]
  | kv0 :: rest, h => by
    rw [dictKeys, List.map_cons, List.nodup_cons] at h
    by_cases hk : kv0.1 = k
    · rw [dictSet_cons, if_pos hk, dictKeys, List.map_cons, List.nodup_cons]
      exact ⟨by rw [← hk]; exact h.1, h.2⟩
    · rw [dictSet_cons, if_neg hk, dictKeys, List.map_cons, List.nodup_cons]
      refine ⟨?_, dictKeys_dictSet_nodup k v rest h.2⟩
      intro hmem
      rcases dictKeys_dictSet_mem k v rest kv0.1 hmem with h1 | h1
      · exact hk h1
      · exact h.1 h1

theorem dictGet_mem_keys {K V : Type} [DecidableEq K] :
    ∀ (d : List (K × V)) (k : K), k ∈ dictKeys d →
      ∃ v, dictGet d k = some v ∧ (k, v) ∈ d
  | [], k, h => by simp [dictKeys] at h
  | kv :: rest, k, h => by
    by_cases hk : kv.1 = k
    · refine ⟨kv.2, ?_, ?_⟩
      · rw [dictGet_cons, if_pos hk]
      · have h2 : (k, kv.2) = kv := by rw [← hk]
        exact h2 ▸ List.mem_cons_self _ _
    · rw [dictKeys, List.map_cons, List.mem_cons] at h
      rcases h with h1 | h1
      · exact absurd h1.symm hk
      · obtain ⟨v, hv, hmem⟩ := dictGet_mem_keys rest k h1
        exact ⟨v, by rw [dictGet_cons, if_neg hk]; exact hv, List.mem_cons_of_mem _ hmem⟩


theorem growthByDate_vals_ge1 :
    ∀ (threads : List Thread) (d : List (Nat × Nat)), (∀ kv ∈ d, 1 ≤ kv.2) →
      ∀ kv ∈ threads.foldl growthCountStep d, 1 ≤ kv.2
  | [], d, hd => by simpa using hd
  | t :: rest, d, hd => by
    rw [List.foldl_cons]
    refine growthByDate_vals_ge1 rest _ ?_
    intro kv hkv
    rcases dictSet_mem _ _ _ kv hkv with h | h
    · rw [h]
      exact Nat.le_add_left 1 _
    · exact hd kv h

theorem growthByDate_keys_from_threads :
    ∀ (threads : List Thread) (d : List (Nat × Nat)),
      ∀ x ∈ dictKeys (threads.foldl growthCountStep d),
        x ∈ dictKeys d ∨ ∃ t ∈ threads, dateOf t.created_at = x
  | [], d, x, hx => Or.inl (by simpa using hx)
  | t :: rest, d, x, hx => by
    rw [List.foldl_cons] at hx
    rcases growthByDate_keys_from_threads rest _ x hx with h | h
    · rcases dictKeys_dictSet_mem _ _ _ x h with h1 | h1
      · exact Or.inr ⟨t, List.mem_cons_self _ _, h1.symm⟩
      · exact Or.inl h1
    · obtain ⟨t2, ht2, hd2⟩ := h
      exact Or.inr ⟨t2, List.mem_cons_of_mem _ ht2, hd2⟩

theorem growthByDate_keys_nodup :
    ∀ (threads : List Thread) (d : List (Nat × Nat)),
      (dictKeys d).Nodup → (dictKeys (threads.foldl growthCountStep d)).Nodup
  | [], d, hd => hd
  | t :: rest, d, hd => by
    rw [List.foldl_cons]
    exact growthByDate_keys_nodup rest _ (dictKeys_dictSet_nodup _ _ _ hd)

theorem growth_foldl_eq (bd : List (Nat × Nat)) :
    ∀ (dates : List Nat) (c : Nat) (es : List GrowthEntry),
      (dates.foldl (growthStep bd) (c, es)).2 = es ++ growthList bd c dates
  | [], c, es => by simp [growthList]
  | date :: rest, c, es => by
    rw [List.foldl_cons]
    show (rest.foldl (growthStep bd)
      (c + dictGetD bd date 0, es ++ [⟨date, dictGetD bd date 0, c + dictGetD bd date 0⟩])).2
      = es ++ growthList bd c (date :: rest)
    rw [growth_foldl_eq bd rest _ _]
    simp [growthList]

theorem growthList_map_date (bd : List (Nat × Nat)) :
    ∀ (dates : List Nat) (c : Nat),
      (growthList bd c dates).map (fun e => e.date) = dates
  | [], c => rfl
  | date :: rest, c => by
    rw [growthList, List.map_cons, growthList_map_date bd rest _]

theorem growthList_mem (bd : List (Nat × Nat)) :
    ∀ (dates : List Nat) (c : Nat), ∀ e ∈ growthList bd c dates,
      e.daily = dictGetD bd e.date 0 ∧ e.date ∈ dates ∧ c ≤ e.cumulative
  | [], c, e, he => by simp [growthList] at he
  | date :: rest, c, e, he => by
    rw [growthList, List.mem_cons] at he
    rcases he with he | he
    · refine ⟨by rw [he], by rw [he]; exact List.mem_cons_self _ _, ?_⟩
      rw [he]
      exact Nat.le_add_right c _
    · obtain ⟨h1, h2, h3⟩ := growthList_mem bd rest _ e he
      exact ⟨h1, List.mem_cons_of_mem _ h2, Nat.le_trans (Nat.le_add_right c _) h3⟩

theorem growthList_pairwise_cum (bd : List (Nat × Nat)) :
    ∀ (dates : List Nat) (c : Nat),
      (growthList bd c dates).Pairwise (fun x y => x.cumulative ≤ y.cumulative)
  | [], c => List.Pairwise.nil
  | date :: rest, c => by
    rw [growthList]
    refine List.Pairwise.cons ?_ (growthList_pairwise_cum bd rest _)
    intro e he
    exact (growthList_mem bd rest _ e he).2.2

theorem growthList_prefix_sum (bd : List (Nat × Nat)) :
    ∀ (dates : List Nat) (c : Nat) (i : Nat) (h : i < (growthList bd c dates).length),
      ((growthList bd c dates).get ⟨i, h⟩).cumulative =
        c + (((growthList bd c dates).take (i + 1)).map (fun e => e.daily)).sum
  | [], c, i, h => by simp [growthList] at h
  | date :: rest, c, 0, h => by
    simp [growthList]
  | date :: rest, c, i + 1, h => by
    have h2 : i < (growthList bd (c + dictGetD bd date 0) rest).length := by
      simp only [growthList, List.length_cons] at h
      omega
    simp only [growthList, List.get_cons_succ, List.take_succ_cons, List.map_cons,
      List.sum_cons]
    rw [growthList_prefix_sum bd rest (c + dictGetD bd date 0) i h2]
    omega


/-- Core facts about the cumulative loop of `get_threads_growth`, phrased
against the loop's result `G`. -/
theorem growth_body_spec (threads : List Thread) (G : List GrowthEntry)
    (hG : ((List.insertionSort (fun a b => a ≤ b)
        (dictKeys (growthByDate threads))).foldl
        (growthStep (growthByDate threads)) (0, [])).2 = G) :
    G.Pairwise (fun x y => x.date < y.date) ∧
    (∀ e ∈ G, 1 ≤ e.daily ∧ ∃ t ∈ threads, dateOf t.created_at = e.date) ∧
    G.Pairwise (fun x y => x.cumulative ≤ y.cumulative) ∧
    (∀ i (h : i < G.length),
      (G.get ⟨i, h⟩).cumulative = ((G.take (i + 1)).map (fun e => e.daily)).sum) := by
  subst hG
  haveI : IsTotal Nat (fun a b => a ≤ b) := ⟨Nat.le_total⟩
  haveI : IsTrans Nat (fun a b => a ≤ b) := ⟨fun _ _ _ h1 h2 => Nat.le_trans h1 h2⟩
  have hG2 : ((List.insertionSort (fun a b => a ≤ b)
      (dictKeys (growthByDate threads))).foldl
      (growthStep (growthByDate threads)) (0, [])).2 =
      growthList (growthByDate threads) 0
        (List.insertionSort (fun a b => a ≤ b) (dictKeys (growthByDate threads))) := by
    rw [growth_foldl_eq]
    simp
  have hnodK : (dictKeys (growthByDate threads)).Nodup :=
    growthByDate_keys_nodup threads [] (by simp [dictKeys])
  have hvals : ∀ kv ∈ growthByDate threads, 1 ≤ kv.2 :=
    growthByDate_vals_ge1 threads [] (by simp)
  have hsorted : (List.insertionSort (fun a b : Nat => a ≤ b)
      (dictKeys (growthByDate threads))).Pairwise (fun a b : Nat => a ≤ b) :=
    List.sorted_insertionSort _ _
  have hnod2 : (List.insertionSort (fun a b : Nat => a ≤ b)
      (dictKeys (growthByDate threads))).Nodup :=
    (List.perm_insertionSort _ _).nodup_iff.mpr hnodK
  have hstrict : (List.insertionSort (fun a b : Nat => a ≤ b)
      (dictKeys (growthByDate threads))).Pairwise (fun a b : Nat => a < b) :=
    List.Sorted.lt_of_le hsorted hnod2
  rw [hG2]
  refine ⟨?_, ?_, growthList_pairwise_cum _ _ _, ?_⟩
  · rw [← growthList_map_date (growthByDate threads)
      (List.insertionSort (fun a b => a ≤ b) (dictKeys (growthByDate threads))) 0]
      at hstrict
    exact List.pairwise_map.mp hstrict
  · intro e he
    obtain ⟨hd, hmem, _⟩ := growthList_mem _ _ _ e he
    rw [List.mem_insertionSort] at hmem
    obtain ⟨v, hv, hkv⟩ := dictGet_mem_keys _ _ hmem
    constructor
    · rw [hd]
      unfold dictGetD
      rw [hv]
      exact hvals _ hkv
    · rcases growthByDate_keys_from_threads threads [] e.date hmem with h | h
      · simp [dictKeys] at h
      · exact h
  · intro i h
    rw [growthList_prefix_sum]
    simp

/-- C5: the threads-growth rows are in strictly ascending date order and
exist only for dates carrying at least one period thread (`daily` is at
least 1 and the date is the calendar date of some period thread); the
`cumulative` values are non-decreasing and each row's `cumulative` equals
the sum of the `daily` values of that row and all earlier rows. -/
theorem get_threads_growth_spec (s : Storage) (start_date end_date : Nat) :
    ((get_threads_growth s start_date end_date).Pairwise
      (fun x y => x.date < y.date)) ∧
    (∀ e ∈ get_threads_growth s start_date end_date,
      1 ≤ e.daily ∧ ∃ t ∈ get_threads_in_period s start_date end_date,
        dateOf t.created_at = e.date) ∧
    ((get_threads_growth s start_date end_date).Pairwise
      (fun x y => x.cumulative ≤ y.cumulative)) ∧
    (∀ i (h : i < (get_threads_growth s start_date end_date).length),
      ((get_threads_growth s start_date end_date).get ⟨i, h⟩).cumulative =
        (((get_threads_growth s start_date end_date).take (i + 1)).map
          (fun e => e.daily)).sum) :=
  growth_body_spec (get_threads_in_period s start_date end_date) _ rfl

/-- C5 witness: two threads on days 0 and 1 produce rows
`(0,1,1), (1,1,2)`; the second row's cumulative equals the sum of the
first two dailies, and the first row's daily is at least 1 with its date
backed by a period thread. -/
theorem get_threads_growth_spec_witness :
    get_threads_growth exStorageG 0 100 = [⟨0, 1, 1⟩, ⟨1, 1, 2⟩] ∧
    ((get_threads_growth exStorageG 0 100).get
        ⟨1, by decide⟩).cumulative =
      (((get_threads_growth exStorageG 0 100).take 2).map (fun e => e.daily)).sum ∧
    (1 ≤ (⟨0, 1, 1⟩ : GrowthEntry).daily ∧
      ∃ t ∈ get_threads_in_period exStorageG 0 100,
        dateOf t.created_at = (⟨0, 1, 1⟩ : GrowthEntry).date) := by
  refine ⟨by decide, ?_, ?_⟩
  · exact (get_threads_growth_spec exStorageG 0 100).2.2.2 1 (by decide)
  · exact (get_threads_growth_spec exStorageG 0 100).2.1 ⟨0, 1, 1⟩ (by decide)

end BankMail
